import Mathlib

/-!
Verification of the booking-agent repository: a shallow embedding of the
availability engine (slot generation and suggestion), the booking ledger
(create and status update with audit), the operation dispatch loop and the
termination policy, together with theorems settling the specification
claims about them.

All instants are modelled as integers (seconds relative to the midnight of
the requested date in the schedule timezone); calendar dates are modelled
as integer day numbers.  The document store is modelled as explicit lists
of documents threaded through each operation.
-/

/-! ## Slot configuration (read_slots_tool.SlotConfig)

DURATION_MINUTES = 30 and BUFFER_MINUTES = 10, expressed in seconds since
the source compares `total_seconds()` values. -/

def DURATION_SECONDS : Int := 1800

def BUFFER_SECONDS : Int := 600

def MAX_DAYS_AHEAD : Int := 30

/-- A provider schedule as read by the availability engine:
`working_hours` is `none` when the schedule declares no working hours
(the source returns an empty slot list in that case), breaks are half-open
pairs of instants, holidays are day numbers. -/
structure Schedule where
  working_hours : Option (Int × Int)
  breaks : List (Int × Int)
  holidays : List Int
deriving DecidableEq

/-- The two skip guards of the slot-generation loop body: the candidate is
discarded when it lies in a break (`b_start <= current < b_end`) or when
its absolute distance to an existing booking start is under the slot
duration.  The source writes these as two nested `if not any(...)` guards
that fall through to the same continuation, which is the same as this
single disjunction. -/
def slotSkipped (breaks : List (Int × Int)) (bookings : List Int) (current : Int) :
    Bool :=
  breaks.any (fun b => decide (b.1 ≤ current) && decide (current < b.2)) ||
    bookings.any (fun b => decide (|current - b| < DURATION_SECONDS))

/-- One iteration of the slot-generation loop in
`generate_available_slots`: from `current`, emit the slot unless a skip
guard fires, then advance by duration plus buffer.  `fuel` bounds the
number of loop iterations; `generate_available_slots` supplies enough fuel
for the loop to run to completion (see `generate_available_slots_mem_iff`). -/
def genSlotsAux (breaks : List (Int × Int)) (bookings : List Int) (stop : Int) :
    Nat → Int → List Int
  | 0, _ => []
  | fuel + 1, current =>
    if current + DURATION_SECONDS ≤ stop then
      if slotSkipped breaks bookings current then
        genSlotsAux breaks bookings stop fuel
          (current + DURATION_SECONDS + BUFFER_SECONDS)
      else
        current :: genSlotsAux breaks bookings stop fuel
          (current + DURATION_SECONDS + BUFFER_SECONDS)
    else []

/-- Fuel bound for the slot-generation loop: the loop advances by 2400
seconds per iteration, so this many iterations always reach the end bound. -/
def slotsFuel (start stop : Int) : Nat := (stop - start).toNat / 2400 + 2

/-- Embedding of `generate_available_slots(schedule, date, existing_bookings)`:
returns `[]` when the schedule declares no working hours, otherwise walks
from the start bound in steps of duration + buffer while the slot end stays
within the end bound. -/
def generate_available_slots (schedule : Schedule) (existing_bookings : List Int) :
    List Int :=
  match schedule.working_hours with
  | none => []
  | some (start, stop) =>
      genSlotsAux schedule.breaks existing_bookings stop (slotsFuel start stop) start

theorem genSlotsAux_le_of_mem (breaks : List (Int × Int)) (bookings : List Int)
    (stop : Int) :
    ∀ (fuel : Nat) (current s : Int),
      s ∈ genSlotsAux breaks bookings stop fuel current → current ≤ s := by
  intro fuel
  induction fuel with
  | zero => intro current s hs; simp [genSlotsAux] at hs
  | succ n ih =>
    intro current s hs
    have hD : DURATION_SECONDS = 1800 := rfl
    have hB : BUFFER_SECONDS = 600 := rfl
    unfold genSlotsAux at hs
    by_cases hend : current + DURATION_SECONDS ≤ stop
    · simp only [if_pos hend] at hs
      cases hskip : slotSkipped breaks bookings current with
      | true =>
        simp only [hskip, if_true] at hs
        have := ih _ s hs
        omega
      | false =>
        simp only [hskip, Bool.false_eq_true, if_false, List.mem_cons] at hs
        rcases hs with h | hs
        · omega
        · have := ih _ s hs
          omega
    · simp only [if_neg hend] at hs
      simp at hs

theorem genSlotsAux_chain (breaks : List (Int × Int)) (bookings : List Int)
    (stop : Int) :
    ∀ (fuel : Nat) (current : Int),
      List.Chain' (· < ·) (genSlotsAux breaks bookings stop fuel current) := by
  intro fuel
  induction fuel with
  | zero => intro current; simp [genSlotsAux]
  | succ n ih =>
    intro current
    have hD : DURATION_SECONDS = 1800 := rfl
    have hB : BUFFER_SECONDS = 600 := rfl
    unfold genSlotsAux
    by_cases hend : current + DURATION_SECONDS ≤ stop
    · simp only [if_pos hend]
      cases hskip : slotSkipped breaks bookings current with
      | true => simp only [hskip, if_true]; exact ih _
      | false =>
        simp only [hskip, Bool.false_eq_true, if_false]
        refine List.chain'_cons'.mpr ⟨?_, ih _⟩
        intro y hy
        have hmem : y ∈ genSlotsAux breaks bookings stop n
            (current + DURATION_SECONDS + BUFFER_SECONDS) :=
          List.mem_of_mem_head? hy
        have := genSlotsAux_le_of_mem breaks bookings stop n _ y hmem
        omega
    · simp [if_neg hend]

theorem genSlotsAux_skip_free (breaks : List (Int × Int)) (bookings : List Int)
    (stop : Int) :
    ∀ (fuel : Nat) (current s : Int),
      s ∈ genSlotsAux breaks bookings stop fuel current →
      slotSkipped breaks bookings s = false := by
  intro fuel
  induction fuel with
  | zero => intro current s hs; simp [genSlotsAux] at hs
  | succ n ih =>
    intro current s hs
    unfold genSlotsAux at hs
    by_cases hend : current + DURATION_SECONDS ≤ stop
    · simp only [if_pos hend] at hs
      cases hskip : slotSkipped breaks bookings current with
      | true =>
        simp only [hskip, if_true] at hs
        exact ih _ s hs
      | false =>
        simp only [hskip, Bool.false_eq_true, if_false, List.mem_cons] at hs
        rcases hs with h | hs
        · rw [h]; exact hskip
        · exact ih _ s hs
    · simp only [if_neg hend] at hs
      simp at hs

theorem slotSkipped_eq_false_iff (breaks : List (Int × Int)) (bookings : List Int)
    (s : Int) :
    slotSkipped breaks bookings s = false ↔
      (∀ b ∈ breaks, ¬(b.1 ≤ s ∧ s < b.2)) ∧
      (∀ bk ∈ bookings, ¬(|s - bk| < DURATION_SECONDS)) := by
  unfold slotSkipped
  simp only [Bool.or_eq_false_iff, List.any_eq_false]
  constructor
  · rintro ⟨h1, h2⟩
    constructor
    · intro b hb hcontra
      have := h1 b hb
      simp [hcontra.1, hcontra.2] at this
    · intro bk hbk hcontra
      have := h2 bk hbk
      simp [hcontra] at this
  · rintro ⟨h1, h2⟩
    constructor
    · intro b hb
      have := h1 b hb
      simp only [Bool.and_eq_true, decide_eq_true_eq] at *
      tauto
    · intro bk hbk
      have := h2 bk hbk
      simp only [decide_eq_true_eq] at *
      tauto

/-- Claim C1: for every schedule and list of existing booking starts,
`generate_available_slots` returns a strictly ascending, duplicate-free
sequence of start instants; no returned slot starts inside a break
interval, and no returned slot lies within the 30-minute duration of any
existing booking start. -/
theorem C1_generate_slots_sorted_and_filtered (schedule : Schedule)
    (existing_bookings : List Int) :
    List.Chain' (· < ·) (generate_available_slots schedule existing_bookings) ∧
    (generate_available_slots schedule existing_bookings).Nodup ∧
    (∀ s ∈ generate_available_slots schedule existing_bookings,
      ∀ b ∈ schedule.breaks, ¬(b.1 ≤ s ∧ s < b.2)) ∧
    (∀ s ∈ generate_available_slots schedule existing_bookings,
      ∀ bk ∈ existing_bookings, ¬(|s - bk| < DURATION_SECONDS)) := by
  have hchain : List.Chain' (· < ·)
      (generate_available_slots schedule existing_bookings) := by
    unfold generate_available_slots
    match schedule.working_hours with
    | none => simp
    | some (start, stop) => exact genSlotsAux_chain _ _ _ _ _
  have hskip : ∀ s ∈ generate_available_slots schedule existing_bookings,
      slotSkipped schedule.breaks existing_bookings s = false := by
    intro s hs
    unfold generate_available_slots at hs
    revert hs
    match schedule.working_hours with
    | none => simp
    | some (start, stop) =>
      intro hs
      exact genSlotsAux_skip_free _ _ _ _ _ s hs
  refine ⟨hchain, ?_, ?_, ?_⟩
  · have hpair : (generate_available_slots schedule existing_bookings).Pairwise
        (· < ·) := (List.chain'_iff_pairwise).mp hchain
    exact hpair.imp (fun hab => ne_of_lt hab)
  · intro s hs
    exact ((slotSkipped_eq_false_iff _ _ _).mp (hskip s hs)).1
  · intro s hs
    exact ((slotSkipped_eq_false_iff _ _ _).mp (hskip s hs)).2

theorem genSlotsAux_mem_iff (breaks : List (Int × Int)) (bookings : List Int)
    (stop : Int) :
    ∀ (fuel : Nat) (current s : Int),
      s ∈ genSlotsAux breaks bookings stop fuel current ↔
        ∃ k : Nat, k < fuel ∧ s = current + 2400 * (k : Int) ∧
          s + DURATION_SECONDS ≤ stop ∧ slotSkipped breaks bookings s = false := by
  intro fuel
  induction fuel with
  | zero => intro current s; simp [genSlotsAux]
  | succ n ih =>
    intro current s
    have hD : DURATION_SECONDS = 1800 := rfl
    have hB : BUFFER_SECONDS = 600 := rfl
    unfold genSlotsAux
    by_cases hend : current + DURATION_SECONDS ≤ stop
    · simp only [if_pos hend]
      cases hskip : slotSkipped breaks bookings current with
      | true =>
        simp only [if_true]
        rw [ih]
        constructor
        · rintro ⟨k, hk, hks, hstop, hsk⟩
          refine ⟨k + 1, by omega, ?_, hstop, hsk⟩
          push_cast
          omega
        · rintro ⟨k, hk, hks, hstop, hsk⟩
          cases k with
          | zero =>
            exfalso
            norm_num at hks
            rw [hks] at hsk
            rw [hskip] at hsk
            exact Bool.noConfusion hsk
          | succ k =>
            refine ⟨k, by omega, ?_, hstop, hsk⟩
            push_cast at hks
            omega
      | false =>
        simp only [Bool.false_eq_true, if_false, List.mem_cons, ih]
        constructor
        · rintro (h | ⟨k, hk, hks, hstop, hsk⟩)
          · refine ⟨0, by omega, by norm_num [h], ?_, ?_⟩
            · rw [h]; exact hend
            · rw [h]; exact hskip
          · refine ⟨k + 1, by omega, ?_, hstop, hsk⟩
            push_cast
            omega
        · rintro ⟨k, hk, hks, hstop, hsk⟩
          cases k with
          | zero => left; norm_num at hks; exact hks
          | succ k =>
            right
            refine ⟨k, by omega, ?_, hstop, hsk⟩
            push_cast at hks
            omega
    · simp only [if_neg hend, List.not_mem_nil, false_iff]
      rintro ⟨k, hk, hks, hstop, hsk⟩
      have hpos : (0 : Int) ≤ 2400 * (k : Int) := by positivity
      omega

theorem generate_available_slots_mem_iff (schedule : Schedule)
    (bookings : List Int) (start stop : Int)
    (hw : schedule.working_hours = some (start, stop)) (s : Int) :
    s ∈ generate_available_slots schedule bookings ↔
      (∃ k : Nat, s = start + 2400 * (k : Int)) ∧ s + DURATION_SECONDS ≤ stop ∧
        slotSkipped schedule.breaks bookings s = false := by
  have hD : DURATION_SECONDS = 1800 := rfl
  unfold generate_available_slots
  rw [hw]
  rw [genSlotsAux_mem_iff]
  constructor
  · rintro ⟨k, hk, hks, hstop, hsk⟩
    exact ⟨⟨k, hks⟩, hstop, hsk⟩
  · rintro ⟨⟨k, hks⟩, hstop, hsk⟩
    refine ⟨k, ?_, hks, hstop, hsk⟩
    unfold slotsFuel
    omega

/-- Claim C10: a candidate slot is discarded for a break exactly when its
start instant lies in the half-open interval from break start (inclusive)
to break end (exclusive); membership in the generated list is fully
characterised by the start being a candidate instant, the slot end fitting
the working hours, the start avoiding every half-open break interval, and
the start keeping at least the slot duration away from every existing
booking start.  In particular a slot that merely extends into a break, or
starts exactly at a break end, is returned. -/
theorem C10_break_halfopen_characterisation (schedule : Schedule)
    (bookings : List Int) (start stop s : Int)
    (hw : schedule.working_hours = some (start, stop)) :
    s ∈ generate_available_slots schedule bookings ↔
      (∃ k : Nat, s = start + 2400 * (k : Int)) ∧ s + DURATION_SECONDS ≤ stop ∧
        (∀ b ∈ schedule.breaks, ¬(b.1 ≤ s ∧ s < b.2)) ∧
        (∀ bk ∈ bookings, ¬(|s - bk| < DURATION_SECONDS)) := by
  rw [generate_available_slots_mem_iff schedule bookings start stop hw s,
    slotSkipped_eq_false_iff]

/-- Witness for C10, on the schedule 09:00 to 17:00 with break 12:00 to
13:00 (instants in seconds): the 11:40 slot (42000), whose 30-minute span
reaches into the break, is returned, and the 13:00 slot (46800), starting
exactly at the break end, is returned. -/
theorem C10_break_halfopen_characterisation_witness :
    42000 ∈ generate_available_slots
      ⟨some (32400, 61200), [(43200, 46800)], []⟩ [] ∧
    46800 ∈ generate_available_slots
      ⟨some (32400, 61200), [(43200, 46800)], []⟩ [] :=
  ⟨(C10_break_halfopen_characterisation
      ⟨some (32400, 61200), [(43200, 46800)], []⟩ [] 32400 61200 42000 rfl).mpr
    ⟨⟨4, by norm_num⟩, by norm_num [DURATION_SECONDS], by decide, by decide⟩,
   (C10_break_halfopen_characterisation
      ⟨some (32400, 61200), [(43200, 46800)], []⟩ [] 32400 61200 46800 rfl).mpr
    ⟨⟨6, by norm_num⟩, by norm_num [DURATION_SECONDS], by decide, by decide⟩⟩

/-! ## Availability suggestion (read_slots_tool.check_availability_and_suggest_slot)

The current clock enters only through the date comparison
`requested_time.date() > (now + 30 days).date()`, modelled at day
granularity by `nowDay`.  The provider lookup result is modelled as an
`Option Schedule` (the source returns a schedule-not-found message when the
provider document is absent), and the existing booking starts fetched from
the store are a parameter. -/

inductive Suggestion where
  | tooFar
  | scheduleNotFound
  | holiday
  | noSlots
  | confirm (slot : Int)
  | alternatives (slots : List Int)
deriving DecidableEq

/-- Python `min(iterable, key=...)`: scan left to right keeping the current
minimum, replacing it only on a strictly smaller key, so the first minimum
wins ties. -/
def pyMinKey (key : Int → Int) : Int → List Int → Int
  | best, [] => best
  | best, x :: xs =>
    if key x < key best then pyMinKey key x xs else pyMinKey key best xs

theorem pyMinKey_mem (key : Int → Int) :
    ∀ (best : Int) (l : List Int), pyMinKey key best l ∈ best :: l := by
  intro best l
  induction l generalizing best with
  | nil => simp [pyMinKey]
  | cons x xs ih =>
    unfold pyMinKey
    by_cases h : key x < key best
    · simp only [if_pos h]
      exact List.mem_cons_of_mem best (ih x)
    · simp only [if_neg h]
      rcases List.mem_cons.mp (ih best) with h1 | h1
      · rw [h1]; exact List.mem_cons_self best _
      · exact List.mem_cons_of_mem best (List.mem_cons_of_mem x h1)

theorem pyMinKey_min (key : Int → Int) :
    ∀ (best : Int) (l : List Int), ∀ x ∈ best :: l,
      key (pyMinKey key best l) ≤ key x := by
  intro best l
  induction l generalizing best with
  | nil =>
    intro x hx
    rcases List.mem_cons.mp hx with h1 | h1
    · rw [h1]; simp [pyMinKey]
    · simp at h1
  | cons y ys ih =>
    intro x hx
    unfold pyMinKey
    by_cases h : key y < key best
    · simp only [if_pos h]
      rcases List.mem_cons.mp hx with h1 | h1
      · have hy := ih y y (List.mem_cons_self y ys)
        rw [h1]
        omega
      · exact ih y x h1
    · simp only [if_neg h]
      rcases List.mem_cons.mp hx with h1 | h1
      · rw [h1]
        exact ih best best (List.mem_cons_self best ys)
      · rcases List.mem_cons.mp h1 with h2 | h2
        · have hb := ih best best (List.mem_cons_self best ys)
          rw [h2]
          omega
        · exact ih best x (List.mem_cons_of_mem best h2)

/-- The branch of the source after slots have been generated: pick the slot
with minimal absolute distance to the requested time; confirm it when the
distance is under five minutes (`time_diff < 5` in minutes, i.e. under 300
seconds), otherwise offer the first three generated slots. -/
def suggestFromSlots (slots : List Int) (requested_time : Int) : Suggestion :=
  match slots with
  | [] => .noSlots
  | s :: rest =>
    if |pyMinKey (fun x => |x - requested_time|) s rest - requested_time| < 300 then
      .confirm (pyMinKey (fun x => |x - requested_time|) s rest)
    else .alternatives ((s :: rest).take 3)

/-- Embedding of `check_availability_and_suggest_slot`: reject dates more
than `MAX_DAYS_AHEAD` days after the current date, then report a missing
provider schedule, then a holiday, then delegate to the slot matcher. -/
def check_availability_and_suggest_slot (nowDay : Int) (schedule : Option Schedule)
    (existing_bookings : List Int) (reqDay requested_time : Int) : Suggestion :=
  if reqDay > nowDay + MAX_DAYS_AHEAD then .tooFar
  else
    match schedule with
    | none => .scheduleNotFound
    | some sched =>
      if sched.holidays.contains reqDay then .holiday
      else suggestFromSlots (generate_available_slots sched existing_bookings)
        requested_time

/-- Claim C6: when the preconditions pass and the generated slot list is
non-empty, the suggestion picks a slot of minimal absolute distance to the
requested time; under a five-minute distance it confirms exactly that slot,
otherwise it lists the first three generated slots in generation
(chronological) order.  In particular with working hours 09:00 to 17:00,
break 12:00 to 13:00 and requested time 09:50 (35400 seconds), the
alternatives offered are 09:00, 09:40 and 10:20. -/
theorem C6_suggest_nearest_or_alternatives :
    (∀ (nowDay : Int) (sched : Schedule) (existing : List Int)
        (reqDay requested_time s : Int) (rest : List Int),
      reqDay ≤ nowDay + MAX_DAYS_AHEAD →
      sched.holidays.contains reqDay = false →
      generate_available_slots sched existing = s :: rest →
      ∃ m, m ∈ s :: rest ∧
        (∀ x ∈ s :: rest, |m - requested_time| ≤ |x - requested_time|) ∧
        check_availability_and_suggest_slot nowDay (some sched) existing reqDay
            requested_time =
          (if |m - requested_time| < 300 then Suggestion.confirm m
           else Suggestion.alternatives ((s :: rest).take 3))) ∧
    check_availability_and_suggest_slot 0
        (some ⟨some (32400, 61200), [(43200, 46800)], []⟩) [] 5 35400 =
      Suggestion.alternatives [32400, 34800, 37200] := by
  constructor
  · intro nowDay sched existing reqDay requested_time s rest h1 h2 h3
    refine ⟨pyMinKey (fun x => |x - requested_time|) s rest,
      pyMinKey_mem _ s rest, ?_, ?_⟩
    · intro x hx
      exact pyMinKey_min (fun x => |x - requested_time|) s rest x hx
    · unfold check_availability_and_suggest_slot
      rw [if_neg (by omega)]
      simp only [h2, Bool.false_eq_true, if_false]
      rw [h3]
      rfl
  · decide

/-- Witness for C6, instantiating its universal part on the 09:00 to 17:00
schedule with the 12:00 to 13:00 break and requested time 09:50. -/
theorem C6_suggest_nearest_or_alternatives_witness :
    ∃ m, m ∈ (32400 : Int) ::
        [34800, 37200, 39600, 42000, 46800, 49200, 51600, 54000, 56400, 58800] ∧
      (∀ x ∈ (32400 : Int) ::
          [34800, 37200, 39600, 42000, 46800, 49200, 51600, 54000, 56400, 58800],
        |m - 35400| ≤ |x - 35400|) ∧
      check_availability_and_suggest_slot 0
          (some ⟨some (32400, 61200), [(43200, 46800)], []⟩) [] 5 35400 =
        (if |m - 35400| < 300 then Suggestion.confirm m
         else Suggestion.alternatives (((32400 : Int) ::
           [34800, 37200, 39600, 42000, 46800, 49200, 51600, 54000, 56400,
             58800]).take 3)) :=
  C6_suggest_nearest_or_alternatives.1 0
    ⟨some (32400, 61200), [(43200, 46800)], []⟩ [] 5 35400 32400
    [34800, 37200, 39600, 42000, 46800, 49200, 51600, 54000, 56400, 58800]
    (by decide) (by decide) (by decide)

/-- Claim C7: the suggestion rejects a requested date more than 30 days
after the current date first; otherwise, for a provider whose schedule
exists, a holiday date yields the provider-unavailable result; otherwise an
empty generated slot list yields the no-slots result. -/
theorem C7_suggest_precondition_order (nowDay : Int) (schedule? : Option Schedule)
    (sched : Schedule) (existing : List Int) (reqDay requested_time : Int) :
    (reqDay > nowDay + MAX_DAYS_AHEAD →
      check_availability_and_suggest_slot nowDay schedule? existing reqDay
        requested_time = .tooFar) ∧
    (reqDay ≤ nowDay + MAX_DAYS_AHEAD → sched.holidays.contains reqDay = true →
      check_availability_and_suggest_slot nowDay (some sched) existing reqDay
        requested_time = .holiday) ∧
    (reqDay ≤ nowDay + MAX_DAYS_AHEAD → sched.holidays.contains reqDay = false →
      generate_available_slots sched existing = [] →
      check_availability_and_suggest_slot nowDay (some sched) existing reqDay
        requested_time = .noSlots) := by
  refine ⟨?_, ?_, ?_⟩
  · intro h
    unfold check_availability_and_suggest_slot
    rw [if_pos h]
  · intro h1 h2
    unfold check_availability_and_suggest_slot
    rw [if_neg (by omega)]
    simp only [h2, if_true]
  · intro h1 h2 h3
    unfold check_availability_and_suggest_slot
    rw [if_neg (by omega)]
    simp only [h2, Bool.false_eq_true, if_false]
    rw [h3]
    rfl

/-- Witness for C7: each of the three branches reached at a concrete input. -/
theorem C7_suggest_precondition_order_witness :
    check_availability_and_suggest_slot 0 none [] 31 0 = .tooFar ∧
    check_availability_and_suggest_slot 0 (some ⟨none, [], [5]⟩) [] 5 0 = .holiday ∧
    check_availability_and_suggest_slot 0 (some ⟨none, [], []⟩) [] 5 0 = .noSlots :=
  ⟨(C7_suggest_precondition_order 0 none ⟨none, [], []⟩ [] 31 0).1 (by decide),
   (C7_suggest_precondition_order 0 (some ⟨none, [], [5]⟩) ⟨none, [], [5]⟩ [] 5 0).2.1
     (by decide) (by decide),
   (C7_suggest_precondition_order 0 (some ⟨none, [], []⟩) ⟨none, [], []⟩ [] 5 0).2.2
     (by decide) (by decide) (by decide)⟩

/-- Counterexample to claim C9 as stated: `check_availability_and_suggest_slot`
reads the current clock for its too-far-in-advance check, so two calls with
identical (schedule, date, existingStarts, requestedTime) but made on
different current dates disagree: on current day 0 a request 31 days out is
rejected as too far ahead, on current day 1 the same request proceeds. -/
theorem C9_counterexample_clock_dependence :
    check_availability_and_suggest_slot 0 (some ⟨none, [], []⟩) [] 31 0 ≠
      check_availability_and_suggest_slot 1 (some ⟨none, [], []⟩) [] 31 0 := by
  decide

/-- Claim C9 amended: `generate_available_slots` is deterministic in
(schedule, existingStarts), and `check_availability_and_suggest_slot` is
deterministic once the current date is fixed alongside the claimed inputs;
both are pure functions of those arguments. -/
theorem C9_amended_determinism (sched : Schedule) (existing : List Int)
    (nowDay : Int) (schedule? : Option Schedule) (reqDay requested_time : Int) :
    generate_available_slots sched existing =
      generate_available_slots sched existing ∧
    check_availability_and_suggest_slot nowDay schedule? existing reqDay
        requested_time =
      check_availability_and_suggest_slot nowDay schedule? existing reqDay
        requested_time :=
  ⟨rfl, rfl⟩

/-! ## Booking ledger: create (create_booking_tool.create_and_save_booking)

The bookings collection is a list of documents; `datetime.utcnow()` is the
`now` parameter; the ISO timestamp is taken already parsed.  The pydantic
`Booking` model validates `user_id` (min length 1) and the stripped
description (length 10 to 500); a violation raises, modelled as a
`validationError` result with no insert. -/

/-- Python `str.strip()`: drop leading and trailing whitespace. -/
def pyStrip (s : String) : String :=
  ⟨((s.data.dropWhile Char.isWhitespace).reverse.dropWhile
    Char.isWhitespace).reverse⟩

inductive BookingStatus where
  | PENDING
  | CONFIRMED
  | CANCELLED
  | RESCHEDULED
deriving DecidableEq

structure Booking where
  id : String
  user_id : String
  description : String
  timestamp : Int
  status : BookingStatus
  created_at : Int
  updated_at : Int
  cancellation_reason : Option String
deriving DecidableEq

inductive CreateResult where
  | conflict
  | validationError
  | created (inserted_id : String)
deriving DecidableEq

/-- Embedding of `create_and_save_booking(db, user_id, description,
parsed_time)`: the duplicate check queries only `user_id` and `timestamp`
(no status filter), then the booking model is constructed (validating
lengths) and inserted with status `PENDING`.  `new_id` stands for the
generated uuid field, `inserted_id` for the storage id returned by the
insert. -/
def create_and_save_booking (bookings : List Booking) (user_id : String)
    (description : String) (booking_time now : Int)
    (new_id inserted_id : String) : CreateResult × List Booking :=
  if bookings.any (fun b => decide (b.user_id = user_id ∧ b.timestamp = booking_time))
  then (.conflict, bookings)
  else if 1 ≤ user_id.length ∧ 10 ≤ (pyStrip description).length ∧
      (pyStrip description).length ≤ 500 then
    (.created inserted_id,
      bookings ++ [⟨new_id, user_id, pyStrip description, booking_time, .PENDING,
        now, now, none⟩])
  else (.validationError, bookings)

/-- Counterexample to claim C2 as stated: the duplicate-check query in
`create_and_save_booking` has no status filter, so an existing CANCELLED
booking at the same (userId, startTime) pair still produces the Conflict
result, where the claim requires the booking to be created. -/
theorem C2_counterexample_cancelled_booking_conflicts :
    (create_and_save_booking
      [⟨"b0", "u1", "teeth cleaning visit", 100, .CANCELLED, 0, 0, none⟩]
      "u1" "a perfectly valid description" 100 0 "b1" "oid1").1 =
      CreateResult.conflict := by
  decide

/-- Claim C2 amended: `create_and_save_booking` returns the Conflict result
(a suggestion to pick another time, not an exception) exactly when any
existing booking, of whatever status including CANCELLED, sits at the exact
(userId, startTime) pair; when no such booking exists and the arguments
pass model validation it inserts the booking and returns its id. -/
theorem C2_amended_create_conflict_on_any_status (bookings : List Booking)
    (user_id description : String) (booking_time now : Int)
    (new_id inserted_id : String) :
    ((∃ b ∈ bookings, b.user_id = user_id ∧ b.timestamp = booking_time) →
      create_and_save_booking bookings user_id description booking_time now
        new_id inserted_id = (.conflict, bookings)) ∧
    ((¬ ∃ b ∈ bookings, b.user_id = user_id ∧ b.timestamp = booking_time) →
      (1 ≤ user_id.length ∧ 10 ≤ (pyStrip description).length ∧
        (pyStrip description).length ≤ 500) →
      create_and_save_booking bookings user_id description booking_time now
        new_id inserted_id =
        (.created inserted_id,
          bookings ++ [⟨new_id, user_id, pyStrip description, booking_time,
            .PENDING, now, now, none⟩])) := by
  have hany : bookings.any
      (fun b => decide (b.user_id = user_id ∧ b.timestamp = booking_time)) = true ↔
      ∃ b ∈ bookings, b.user_id = user_id ∧ b.timestamp = booking_time := by
    simp [List.any_eq_true]
  constructor
  · intro hex
    unfold create_and_save_booking
    rw [if_pos (hany.mpr hex)]
  · intro hex hvalid
    unfold create_and_save_booking
    rw [if_neg (fun hc => hex (hany.mp hc)), if_pos hvalid]

/-- Witness for C2 amended: a PENDING booking at the pair produces the
Conflict result, and with no booking at the pair the insert happens. -/
theorem C2_amended_create_conflict_on_any_status_witness :
    create_and_save_booking
      [⟨"b0", "u2", "dental check appointment", 200, .PENDING, 0, 0, none⟩]
      "u2" "a perfectly valid description" 200 7 "b1" "oid1" =
      (.conflict,
        [⟨"b0", "u2", "dental check appointment", 200, .PENDING, 0, 0, none⟩]) ∧
    create_and_save_booking [] "u3" "a perfectly valid description" 300 7
      "b2" "oid2" =
      (.created "oid2",
        [] ++ [⟨"b2", "u3", pyStrip "a perfectly valid description", 300,
          .PENDING, 7, 7, none⟩]) :=
  ⟨(C2_amended_create_conflict_on_any_status
      [⟨"b0", "u2", "dental check appointment", 200, .PENDING, 0, 0, none⟩]
      "u2" "a perfectly valid description" 200 7 "b1" "oid1").1
    (by decide),
   (C2_amended_create_conflict_on_any_status [] "u3"
      "a perfectly valid description" 300 7 "b2" "oid2").2
    (by decide) (by decide)⟩

/-! ## Booking ledger: status update (create_notification_tool.update_booking_status_tool)

This is the variant carrying the reschedule handling the specification
describes (update_booking_tool.update_booking_status has the same
lookup / audit / transaction shape without the reschedule branch).  Booking
documents keep the fields this operation reads or writes; the audit
collection is append-only.  `fail_between` injects a failure between the
booking update and the audit insert inside the storage transaction: the
transaction context aborts, no write becomes visible, and the error
propagates (`txnFailed`). -/

structure BookingDoc where
  _id : String
  provider_id : String
  timestamp : Int
  status : BookingStatus
  updated_at : Int
  cancellation_reason : Option String
deriving DecidableEq

structure AuditDoc where
  booking_id : String
  previous_status : BookingStatus
  new_status : BookingStatus
  changed_at : Int
  reason : Option String
  new_time : Option Int
deriving DecidableEq

structure BookingUpdate where
  status : BookingStatus
  new_time : Option Int
  reason : Option String
deriving DecidableEq

structure DB where
  bookings : List BookingDoc
  booking_audits : List AuditDoc
deriving DecidableEq

inductive UpdateOutcome where
  | notFound
  | missingNewTime
  | slotUnavailable
  | txnFailed
  | updated (status : BookingStatus)
deriving DecidableEq

/-- Embedding of `check_slot_availability`: no non-excluded PENDING or
CONFIRMED booking of the provider sits at the requested instant.  An empty
exclusion id is falsy in the source and disables the exclusion clause. -/
def check_slot_availability (bookings : List BookingDoc) (provider_id : String)
    (requested_time : Int) (exclude_booking_id : String) : Bool :=
  (bookings.find? (fun b =>
    decide (b.provider_id = provider_id) && decide (b.timestamp = requested_time) &&
    (decide (b.status = .CONFIRMED) || decide (b.status = .PENDING)) &&
    (decide (exclude_booking_id = "") || decide (b._id ≠ exclude_booking_id)))).isNone

/-- Python `a or b` for an optional string: `None` and the empty string are
falsy. -/
def pyOrStr (a : Option String) (b : String) : String :=
  match a with
  | none => b
  | some s => if s = "" then b else s

/-- The `$set` document built by the source: always the new status and
updated-at instant; on cancellation additionally the cancellation reason
with its default; on reschedule additionally the new start time (which the
control flow guarantees is present there). -/
def applyUpdateFields (update : BookingUpdate) (now : Int) (b : BookingDoc) :
    BookingDoc :=
  let b1 := { b with status := update.status, updated_at := now }
  if update.status = .CANCELLED then
    { b1 with cancellation_reason := some (pyOrStr update.reason "No reason provided") }
  else if update.status = .RESCHEDULED then
    { b1 with timestamp := update.new_time.getD b1.timestamp }
  else b1

/-- Mongo `update_one`: rewrite the first document matching the filter. -/
def updateFirst (p : BookingDoc → Bool) (f : BookingDoc → BookingDoc) :
    List BookingDoc → List BookingDoc
  | [] => []
  | x :: xs => if p x then f x :: xs else x :: updateFirst p f xs

/-- Embedding of `update_booking_status_tool(db, booking_id, update)`:
look up the booking by id; for a reschedule demand a new time and an
available slot (excluding this booking); then update the booking document
and append one audit entry inside a single transaction. -/
def update_booking_status_tool (db : DB) (booking_id : String)
    (update : BookingUpdate) (now : Int) (fail_between : Bool) :
    UpdateOutcome × DB :=
  match db.bookings.find? (fun b => decide (b._id = booking_id)) with
  | none => (.notFound, db)
  | some booking =>
    if update.status = .RESCHEDULED ∧ update.new_time = none then
      (.missingNewTime, db)
    else if update.status = .RESCHEDULED ∧
        check_slot_availability db.bookings booking.provider_id
          (update.new_time.getD 0) booking_id = false then
      (.slotUnavailable, db)
    else if fail_between then (.txnFailed, db)
    else
      (.updated update.status,
        { bookings := updateFirst (fun b => decide (b._id = booking_id))
            (applyUpdateFields update now) db.bookings,
          booking_audits := db.booking_audits ++
            [{ booking_id := booking_id, previous_status := booking.status,
               new_status := update.status, changed_at := now,
               reason := update.reason, new_time := update.new_time }] })

/-- Counterexample to claim C3 as stated: a reschedule request without a
new time whose booking id is unknown yields the not-found outcome, not the
missing-information outcome, so the claim does not hold for every call. -/
theorem C3_counterexample_unknown_id_not_missing_info :
    (update_booking_status_tool ⟨[], []⟩ "b1"
      ⟨.RESCHEDULED, none, none⟩ 0 false).1 ≠ UpdateOutcome.missingNewTime := by
  decide

/-- Claim C3 amended: a reschedule request without a new time never mutates
the bookings or audit collections, and when the booking id refers to an
existing booking it yields the missing-information outcome. -/
theorem C3_amended_reschedule_requires_new_time (db : DB) (booking_id : String)
    (update : BookingUpdate) (now : Int) (fail_between : Bool)
    (hst : update.status = .RESCHEDULED) (hnt : update.new_time = none) :
    (update_booking_status_tool db booking_id update now fail_between).2 = db ∧
    ((db.bookings.find? (fun b => decide (b._id = booking_id))).isSome →
      (update_booking_status_tool db booking_id update now fail_between).1 =
        .missingNewTime) := by
  unfold update_booking_status_tool
  cases hfind : db.bookings.find? (fun b => decide (b._id = booking_id)) with
  | none =>
    refine ⟨rfl, ?_⟩
    intro hsome
    simp at hsome
  | some booking =>
    constructor
    · simp [hst, hnt]
    · intro _
      simp [hst, hnt]

/-- Witness for C3 amended: a reschedule of an existing booking without a
new time returns the missing-information outcome and leaves the store
unchanged. -/
theorem C3_amended_reschedule_requires_new_time_witness :
    (update_booking_status_tool
      ⟨[⟨"b1", "p1", 100, .PENDING, 0, none⟩], []⟩ "b1"
      ⟨.RESCHEDULED, none, none⟩ 5 false).2 =
      ⟨[⟨"b1", "p1", 100, .PENDING, 0, none⟩], []⟩ ∧
    (update_booking_status_tool
      ⟨[⟨"b1", "p1", 100, .PENDING, 0, none⟩], []⟩ "b1"
      ⟨.RESCHEDULED, none, none⟩ 5 false).1 = .missingNewTime := by
  have h := C3_amended_reschedule_requires_new_time
    ⟨[⟨"b1", "p1", 100, .PENDING, 0, none⟩], []⟩ "b1"
    ⟨.RESCHEDULED, none, none⟩ 5 false rfl rfl
  exact ⟨h.1, h.2 (by decide)⟩


/-- Claim C4: a successful status update applies the booking field update
(status, updated-at, the defaulted cancellation reason on cancel, the new
start time on reschedule) and appends exactly one audit entry, and the two
writes are atomic: whenever the outcome is not a successful update — in
particular whenever a failure is injected between the booking update and
the audit insert inside the transaction — the store is left exactly as it
was. -/
theorem C4_update_atomicity (db : DB) (booking_id : String)
    (update : BookingUpdate) (now : Int) (fail_between : Bool) :
    (∀ st, (update_booking_status_tool db booking_id update now fail_between).1 =
        .updated st →
      ∃ booking,
        db.bookings.find? (fun b => decide (b._id = booking_id)) = some booking ∧
        (update_booking_status_tool db booking_id update now fail_between).2 =
          { bookings := updateFirst (fun b => decide (b._id = booking_id))
              (applyUpdateFields update now) db.bookings,
            booking_audits := db.booking_audits ++
              [{ booking_id := booking_id, previous_status := booking.status,
                 new_status := update.status, changed_at := now,
                 reason := update.reason, new_time := update.new_time }] }) ∧
    ((¬ ∃ st, (update_booking_status_tool db booking_id update now
        fail_between).1 = .updated st) →
      (update_booking_status_tool db booking_id update now fail_between).2 = db) ∧
    (fail_between = true →
      (update_booking_status_tool db booking_id update now fail_between).2 = db) ∧
    (∀ b, update.status = .CANCELLED →
      (applyUpdateFields update now b).cancellation_reason =
        some (pyOrStr update.reason "No reason provided")) ∧
    (∀ b t, update.status = .RESCHEDULED → update.new_time = some t →
      (applyUpdateFields update now b).timestamp = t) := by
  have happly1 : ∀ b, update.status = .CANCELLED →
      (applyUpdateFields update now b).cancellation_reason =
        some (pyOrStr update.reason "No reason provided") := by
    intro b hc
    unfold applyUpdateFields
    simp [hc]
  have happly2 : ∀ b t, update.status = .RESCHEDULED → update.new_time = some t →
      (applyUpdateFields update now b).timestamp = t := by
    intro b t hr hnt
    unfold applyUpdateFields
    simp [hr, hnt]
  have hsucc : ∀ st,
      (update_booking_status_tool db booking_id update now fail_between).1 =
        .updated st →
      ∃ booking,
        db.bookings.find? (fun b => decide (b._id = booking_id)) = some booking ∧
        (update_booking_status_tool db booking_id update now fail_between).2 =
          { bookings := updateFirst (fun b => decide (b._id = booking_id))
              (applyUpdateFields update now) db.bookings,
            booking_audits := db.booking_audits ++
              [{ booking_id := booking_id, previous_status := booking.status,
                 new_status := update.status, changed_at := now,
                 reason := update.reason, new_time := update.new_time }] } := by
    unfold update_booking_status_tool
    cases hfind : db.bookings.find? (fun b => decide (b._id = booking_id)) with
    | none =>
      intro st h
      simp at h
    | some booking =>
      by_cases h1 : update.status = BookingStatus.RESCHEDULED ∧
          update.new_time = none
      · intro st h
        simp [h1] at h
      · by_cases h2 : update.status = BookingStatus.RESCHEDULED ∧
            check_slot_availability db.bookings booking.provider_id
              (update.new_time.getD 0) booking_id = false
        · intro st h
          simp [h1, h2] at h
          split at h <;> simp at h
        · by_cases h3 : fail_between = true
          · intro st h
            simp [h1, h2, h3] at h
          · intro st h
            exact ⟨booking, rfl, by simp [h1, h2, h3]⟩
  have hnosucc :
      (¬ ∃ st, (update_booking_status_tool db booking_id update now
          fail_between).1 = .updated st) →
      (update_booking_status_tool db booking_id update now fail_between).2 = db := by
    unfold update_booking_status_tool
    cases hfind : db.bookings.find? (fun b => decide (b._id = booking_id)) with
    | none =>
      intro _
      rfl
    | some booking =>
      by_cases h1 : update.status = BookingStatus.RESCHEDULED ∧
          update.new_time = none
      · intro _
        simp [h1]
      · by_cases h2 : update.status = BookingStatus.RESCHEDULED ∧
            check_slot_availability db.bookings booking.provider_id
              (update.new_time.getD 0) booking_id = false
        · intro _
          simp [h1, h2]
          split <;> rfl
        · by_cases h3 : fail_between = true
          · intro _
            simp [h1, h2, h3]
          · intro hne
            exfalso
            exact hne ⟨update.status, by simp [h1, h2, h3]⟩
  have hfail : fail_between = true →
      (update_booking_status_tool db booking_id update now fail_between).2 = db := by
    intro hf
    unfold update_booking_status_tool
    cases hfind : db.bookings.find? (fun b => decide (b._id = booking_id)) with
    | none => rfl
    | some booking =>
      by_cases h1 : update.status = BookingStatus.RESCHEDULED ∧
          update.new_time = none
      · simp [h1]
      · by_cases h2 : update.status = BookingStatus.RESCHEDULED ∧
            check_slot_availability db.bookings booking.provider_id
              (update.new_time.getD 0) booking_id = false
        · simp [h1, h2]
          split <;> rfl
        · simp [h1, h2, hf]
  exact ⟨hsucc, hnosucc, hfail, happly1, happly2⟩

/-- Witness for C4: a cancellation of an existing booking with no injected
failure updates the booking document and appends one audit entry, while
the same call with an injected failure leaves the store unchanged. -/
theorem C4_update_atomicity_witness :
    (∃ booking,
      (DB.mk [⟨"b1", "p1", 100, .PENDING, 0, none⟩] []).bookings.find?
          (fun b => decide (b._id = "b1")) = some booking ∧
      (update_booking_status_tool ⟨[⟨"b1", "p1", 100, .PENDING, 0, none⟩], []⟩
          "b1" ⟨.CANCELLED, none, some "patient request"⟩ 9 false).2 =
        { bookings := updateFirst (fun b => decide (b._id = "b1"))
            (applyUpdateFields ⟨.CANCELLED, none, some "patient request"⟩ 9)
            (DB.mk [⟨"b1", "p1", 100, .PENDING, 0, none⟩] []).bookings,
          booking_audits :=
            (DB.mk [⟨"b1", "p1", 100, .PENDING, 0, none⟩] []).booking_audits ++
            [{ booking_id := "b1", previous_status := booking.status,
               new_status := .CANCELLED, changed_at := 9,
               reason := some "patient request", new_time := none }] }) ∧
    (update_booking_status_tool ⟨[⟨"b1", "p1", 100, .PENDING, 0, none⟩], []⟩
        "b1" ⟨.CANCELLED, none, some "patient request"⟩ 9 true).2 =
      ⟨[⟨"b1", "p1", 100, .PENDING, 0, none⟩], []⟩ :=
  ⟨(C4_update_atomicity ⟨[⟨"b1", "p1", 100, .PENDING, 0, none⟩], []⟩
      "b1" ⟨.CANCELLED, none, some "patient request"⟩ 9 false).1
    BookingStatus.CANCELLED (by decide),
   (C4_update_atomicity ⟨[⟨"b1", "p1", 100, .PENDING, 0, none⟩], []⟩
      "b1" ⟨.CANCELLED, none, some "patient request"⟩ 9 true).2.2.1 rfl⟩

/-! ## Operation dispatch (graph.booking_agent tool-call loop)

The source keeps the registered tools in a Python list of `StructuredTool`
objects and guards each requested call with `if tool_call.name in tools:`.
Python list membership compares the string name against each tool object
by equality; a pydantic `StructuredTool` instance never equals a `str`
(both `__eq__` directions return NotImplemented, falling back to identity,
which is false for distinct objects), so the guard is false for every
call and `tools[tool_call.name]` on the true branch is unreachable. -/

structure StructuredToolSpec where
  name : String
deriving DecidableEq

/-- The three registered tools of `graph.py`. -/
def tools_list : List StructuredToolSpec :=
  [⟨"create_booking"⟩, ⟨"check_availability"⟩, ⟨"update_booking"⟩]

/-- Python equality between a `StructuredTool` object and the requested
name string: always false, since a tool object is never equal to a `str`. -/
def toolEqName (_t : StructuredToolSpec) (_name : String) : Bool :=
  false

/-- Python `tool_call.name in tools`: some element of the tool list
compares equal to the name. -/
def name_in_tools (name : String) (ts : List StructuredToolSpec) : Bool :=
  ts.any (fun t => toolEqName t name)

structure ToolCall where
  id : String
  name : String
deriving DecidableEq

structure ToolResultMsg where
  tool_call_id : String
  content : String
deriving DecidableEq

/-- Embedding of the tool-call loop of `booking_agent`: for each requested
call whose name passes the membership guard, invoke the handler and append
one result message carrying the request id; otherwise continue silently.
`invoke` stands for the (stringified) handler invocation. -/
def dispatch_tool_calls (invoke : ToolCall → String) :
    List ToolCall → List ToolResultMsg
  | [] => []
  | tc :: rest =>
    (if name_in_tools tc.name tools_list then [⟨tc.id, invoke tc⟩] else []) ++
      dispatch_tool_calls invoke rest

/-- Claim C5 is a code bug: the claim (and the specification) say a
requested operation whose name is in the registry is invoked and answered
with exactly one correlated result message, but the membership guard
compares the name string against `StructuredTool` objects and is therefore
always false, so every requested operation — including the registered
`create_booking` — is silently dropped and no result message is ever
appended.  The indexing `tools[tool_call.name]` on the guarded branch
shows a name-keyed mapping was intended. -/
theorem C5_dispatch_drops_registered_calls :
    ("create_booking" ∈ tools_list.map StructuredToolSpec.name ∧
     "check_availability" ∈ tools_list.map StructuredToolSpec.name ∧
     "update_booking" ∈ tools_list.map StructuredToolSpec.name) ∧
    (∀ (invoke : ToolCall → String) (calls : List ToolCall),
      dispatch_tool_calls invoke calls = []) ∧
    dispatch_tool_calls (fun _ => "booking saved") [⟨"call_1", "create_booking"⟩]
      = [] := by
  refine ⟨by decide, ?_, rfl⟩
  intro invoke calls
  induction calls with
  | nil => rfl
  | cons tc rest ih =>
    simp [dispatch_tool_calls, name_in_tools, toolEqName, ih]

/-! ## Termination policy (graph.should_continue)

Conversation messages carry their role and content; matching is
case-insensitive substring containment, with Python `str.lower()` and
`needle in haystack` modelled character-list-wise. -/

inductive Message where
  | system (content : String)
  | user (content : String)
  | assistant (content : String)
  | toolResult (content : String)
deriving DecidableEq

/-- Python `str.lower()` (the phrases involved are ASCII). -/
def pyLower (s : String) : String :=
  ⟨s.data.map Char.toLower⟩

def substrOccurs : List Char → List Char → Bool
  | needle, [] => needle.isEmpty
  | needle, c :: rest => needle.isPrefixOf (c :: rest) || substrOccurs needle rest

/-- Python `needle in haystack` for strings: some suffix of the haystack
starts with the needle. -/
def pyIn (needle hay : String) : Bool :=
  substrOccurs needle.data hay.data

def success_indicators : List String :=
  ["booking confirmed", "successfully saved", "booking id"]

def update_indicators : List String :=
  ["cancelled", "rescheduled", "updated to"]

def exit_phrases : List String :=
  ["goodbye", "thank you", "that\x27s all", "exit"]

/-- The per-message test of `should_continue`: an operation-result message
containing a success or status-change phrase, or a user message containing
an exit phrase, ends the conversation. -/
def matchesEnd (m : Message) : Bool :=
  match m with
  | .toolResult content =>
    success_indicators.any (fun p => pyIn p (pyLower content)) ||
      update_indicators.any (fun p => pyIn p (pyLower content))
  | .user content => exit_phrases.any (fun p => pyIn p (pyLower content))
  | _ => false

/-- The scan of `should_continue`: walk the (already reversed) message list
and stop with "end" at the first match. -/
def scanForEnd : List Message → String
  | [] => "continue"
  | m :: rest => if matchesEnd m then "end" else scanForEnd rest

/-- Embedding of `should_continue(state)`: empty log continues, otherwise
the log is scanned from most recent to oldest. -/
def should_continue (messages : List Message) : String :=
  if messages.isEmpty then "continue" else scanForEnd messages.reverse

theorem scanForEnd_eq_any (l : List Message) :
    scanForEnd l = (if l.any matchesEnd then "end" else "continue") := by
  induction l with
  | nil => rfl
  | cons m rest ih =>
    unfold scanForEnd
    cases hm : matchesEnd m with
    | true => simp [hm]
    | false => simp [hm, ih]

theorem matchesEnd_eq_true_iff (m : Message) :
    matchesEnd m = true ↔
      (∃ c, m = .toolResult c ∧
        (success_indicators.any (fun p => pyIn p (pyLower c)) = true ∨
         update_indicators.any (fun p => pyIn p (pyLower c)) = true)) ∨
      (∃ c, m = .user c ∧ exit_phrases.any (fun p => pyIn p (pyLower c)) = true) := by
  cases m with
  | system c => simp [matchesEnd]
  | user c => simp [matchesEnd]
  | assistant c => simp [matchesEnd]
  | toolResult c => simp [matchesEnd]

/-- Claim C8: the termination policy continues on an empty log; otherwise
it ends exactly when some message of the log is an operation-result message
whose lower-cased text contains a success phrase ("booking confirmed",
"successfully saved", "booking id") or a status-change phrase ("cancelled",
"rescheduled", "updated to"), or a user message whose lower-cased text
contains an exit phrase ("goodbye", "thank you", "that\x27s all", "exit");
in particular a log holding only the user message "hi" continues. -/
theorem C8_should_continue_scan :
    should_continue [] = "continue" ∧
    (∀ messages : List Message,
      should_continue messages =
        (if messages.any matchesEnd then "end" else "continue")) ∧
    (∀ messages : List Message, messages.any matchesEnd = true ↔
      ∃ m ∈ messages,
        (∃ c, m = .toolResult c ∧
          (success_indicators.any (fun p => pyIn p (pyLower c)) = true ∨
           update_indicators.any (fun p => pyIn p (pyLower c)) = true)) ∨
        (∃ c, m = .user c ∧
          exit_phrases.any (fun p => pyIn p (pyLower c)) = true)) ∧
    should_continue [Message.user "hi"] = "continue" ∧
    should_continue [Message.user "hello", Message.toolResult "Booking id 123"] =
      "end" := by
  refine ⟨rfl, ?_, ?_, by decide, by decide⟩
  · intro messages
    unfold should_continue
    cases messages with
    | nil => rfl
    | cons m rest =>
      rw [if_neg (by simp)]
      rw [scanForEnd_eq_any]
      simp [List.any_eq_true, or_comm]
  · intro messages
    rw [List.any_eq_true]
    constructor
    · rintro ⟨m, hm, hmx⟩
      exact ⟨m, hm, (matchesEnd_eq_true_iff m).mp hmx⟩
    · rintro ⟨m, hm, hmx⟩
      exact ⟨m, hm, (matchesEnd_eq_true_iff m).mpr hmx⟩
